import Mathlib

/-!
Verification development for the jimeng image-expansion service
(`docs/jimeng.py`).  The definitions below are a shallow embedding of the
worker-pool / dispatch machinery of that file: the global `windows` list is a
`List Window`, the global `window_index` is an explicit cursor argument, the
wall clock is an explicit `elapsed` counter that advances only at the
`asyncio.sleep` / `time.sleep` suspension points, and every external I/O
outcome (HTTP responses, playwright navigation, file system) is supplied by an
explicit environment record so that one run of `jimeng_expand` is a pure
function of that environment.
-/

namespace Jimeng

/-- One entry of the global `windows` list: `name`, the token-bucket state of
`window['token_bucket']`, and whether `window['instance']` is already set
(non-`None`). -/
structure Window where
  name : String
  tokenAvail : Nat
  tokenCap : Nat
  instancePresent : Bool
deriving DecidableEq, Repr

/-- Placeholder window used for total list indexing; every indexing site is
guarded by a bounds fact. -/
def dummyWindow : Window := ⟨"", 0, 0, false⟩

/-- Modelled from the spec: `rates.TokenBucket.get_token(acquire=True)` from the
external `cutils` library (not part of src/).  Per §4.1 of the design, it is a
non-blocking try-acquire: it returns whether a permit was granted and
decrements `available` on success.  Background refill is not modelled; the
claims that mention refill only ever assume its absence. -/
def getToken (w : Window) : Bool × Window :=
  if 0 < w.tokenAvail then (true, { w with tokenAvail := w.tokenAvail - 1 })
  else (false, w)

/-- Modelled from the spec: `rates.TokenBucket.release()` from the external
`cutils` library — increments `available`, capped at `capacity`. -/
def releaseToken (w : Window) : Window :=
  { w with tokenAvail := min (w.tokenAvail + 1) w.tokenCap }

/-- Result of the acquisition loop at the top of `jimeng_expand`
(lines 280-291).  `acquired pool i cursor elapsed` carries the pool after the
successful `get_token` (the selected window's bucket decremented), the selected
index, the advanced cursor and the elapsed seconds spent waiting; `timeout` is
the `raise Exception('get token bucket timeout')` path; `emptyCrash` is the
`ZeroDivisionError` raised by `windows[window_index % len(windows)]` when
`windows` is empty. -/
inductive AcqResult
  | acquired (pool : List Window) (i : Nat) (cursor : Nat) (elapsed : Nat)
  | timeout (cursor : Nat) (elapsed : Nat)
  | emptyCrash (cursor : Nat) (elapsed : Nat)
deriving DecidableEq, Repr

/-- The `while window is None` loop of `jimeng_expand` (lines 280-291): fail
once more than 300 seconds have elapsed since entry, index the pool at
`cursor % length` (modulo-by-zero when the pool is empty), advance the cursor
by one, try the selected window's token bucket, and on failure sleep 5 seconds
and retry.  `elapsed` advances by 5 at each failed attempt, modelling the
`await asyncio.sleep(5)` as the only suspension point that consumes time. -/
def acquireLoop (ws : List Window) (cursor elapsed : Nat) : AcqResult :=
  if _h1 : 300 < elapsed then .timeout cursor elapsed
  else if _h2 : ws.length = 0 then .emptyCrash cursor elapsed
  else
    match getToken (ws.getD (cursor % ws.length) dummyWindow) with
    | (true, w2) =>
      .acquired (ws.set (cursor % ws.length) w2) (cursor % ws.length)
        (cursor + 1) elapsed
    | (false, _) => acquireLoop ws (cursor + 1) (elapsed + 5)
termination_by 301 - elapsed
decreasing_by omega

/-- A window after a successful `get_token`: one permit consumed. -/
def decWindow (w : Window) : Window := { w with tokenAvail := w.tokenAvail - 1 }

/-- `m` back-to-back runs of the acquisition loop (as performed by `m`
consecutive jobs): returns the selected indices in order, the final pool and
the final cursor; stops early if an acquisition fails. -/
def acquireSeq : Nat → List Window → Nat → List Nat × List Window × Nat
  | 0, ws, c => ([], ws, c)
  | m + 1, ws, c =>
    match acquireLoop ws c 0 with
    | .acquired ws2 i c2 _ =>
      let r := acquireSeq m ws2 c2
      (i :: r.1, r.2.1, r.2.2)
    | _ => ([], ws, c)

/-- Environment of one `jimeng_expand` run: every branch condition that the
Python code reads from the outside world, in source order. -/
structure ExecEnv where
  /-- `os.environ.get('C_CUSTOM_KEY_MACHINE', '') == 'MY_DEV'`. -/
  isDev : Bool
  /-- the lazy `connect_over_cdp` of line 297 raises. -/
  initRaises : Bool
  /-- the `expect_response(user_credit)` / `page.goto` of lines 311-313 times
  out (uncaught `PlaywrightTimeoutError`). -/
  creditNavTimeout : Bool
  /-- HTTP status of the `user_credit` response. -/
  creditStatus : Nat
  /-- `body['ret']` of the `user_credit` response. -/
  creditRet : String
  gift : Nat
  purchase : Nat
  vip : Nat
  /-- `os.path.exists(file_path)`. -/
  fileExists : Bool
  /-- height of the input image (`img.size`). -/
  imgHeight : Nat
  /-- a `PlaywrightTimeoutError` raised by the locator clicks of
  lines 352-367 (caught at line 368). -/
  interactionTimeout : Bool
  /-- HTTP status of the `painting` response. -/
  paintingStatus : Nat
  /-- `body['ret']` of the `painting` response. -/
  paintingRet : String
  /-- `body['errmsg']` of the `painting` response. -/
  paintingErrmsg : String
  /-- `item_list`: per item, its `large_images` list, each entry reduced to its
  optional `image_url` field. -/
  items : List (List (Option String))
  /-- the parse loop of lines 396-401 raises (e.g. a non-dict item). -/
  parseRaises : Bool
deriving DecidableEq, Repr

/-- Result of one `jimeng_expand` run as seen by `process_img`: a normal
return of the parsed image-url list, a `BizException(code, message)`, or any
other exception (generic `Exception`, `ZeroDivisionError`, `NameError`,
playwright errors). -/
inductive JResult
  | ok (urls : List (Option String))
  | biz (code : Nat) (message : String)
  | err (message : String)
deriving DecidableEq, Repr

def creditMsg (n : String) : String := "[" ++ n ++ "] 积分不足"

def pageTimeoutMsg (n : String) : String := "[" ++ n ++ "] 请求页面位置超时"

def rateMsg (n : String) : String := "[" ++ n ++ "] api限速"

def banMsg (n : String) : String := "[" ++ n ++ "] 被封号"

def parseFailMsg (n : String) : String := "[" ++ n ++ "] 解析图片URL失败"

def noUrlMsg (n : String) : String := "[" ++ n ++ "] 未找到图片URL"

def lowSizeMsg (n : String) : String := "[" ++ n ++ "] 图片尺寸过低，无法上传"

/-- Eviction: `windows = [w for w in windows if w['name'] != window_name]`
(lines 325, 369, 385). -/
def evict (ws : List Window) (n : String) : List Window :=
  ws.filter (fun x => x.name != n)

/-- Result of the `try:` block of `jimeng_expand` (lines 306-407): the job
result, the global `windows` list afterwards, and the alert messages sent via
`utils.sendAlert`. -/
structure BodyOut where
  result : JResult
  pool : List Window
  alerts : List String
deriving DecidableEq, Repr

/-- Second half of the `try:` block (lines 349-407): the page-interaction
timeout handler (evict + alert + `BizException 1006`; the alert is skipped
under `MY_DEV`), the painting response branches (`1003` rate limit without
eviction; `1018` → evict and, outside dev, alert + `BizException 1101`; any
other non-ok response reaches `sendAlert(message)` with `message` unbound — a
`NameError` — outside dev, or falls to `Exception('request error')` in dev),
the URL-parse loop (`BizException 1004` on a raise; each item contributes the
`image_url` of the first of its `large_images`, when any), the empty-result
check (`BizException 1005`), and the normal return of `images_url`. -/
def paintingPhase (env : ExecEnv) (ws : List Window) (w : Window) : BodyOut :=
  if env.interactionTimeout then
    ⟨.biz 1006 (pageTimeoutMsg w.name), evict ws w.name,
      if env.isDev then [] else [pageTimeoutMsg w.name]⟩
  else if env.paintingStatus ≠ 200 ∨ env.paintingRet ≠ "0" then
    if env.paintingRet = "1" ∧ env.paintingErrmsg = "api rate limit" then
      ⟨.biz 1003 (rateMsg w.name), ws, []⟩
    else if env.paintingRet = "1018" then
      if env.isDev then ⟨.err "request error", evict ws w.name, []⟩
      else ⟨.biz 1101 (banMsg w.name), evict ws w.name, [banMsg w.name]⟩
    else if env.isDev then ⟨.err "request error", ws, []⟩
    else ⟨.err "NameError: name 'message' is not defined", ws, []⟩
  else if env.parseRaises then ⟨.biz 1004 (parseFailMsg w.name), ws, []⟩
  else if (env.items.filterMap List.head?).length = 0 then
    ⟨.biz 1005 (noUrlMsg w.name), ws, []⟩
  else ⟨.ok (env.items.filterMap List.head?), ws, []⟩

/-- The `try:` block of `jimeng_expand` (lines 306-407), given the acquired
window `w` and the current global pool `ws`, in source order: user-credit
navigation, the non-ok credit response, the credit check (evict + alert +
`BizException 1100` below 15 total credit; the alert is skipped under
`MY_DEV`), input-file existence, the `scale > 3` size check
(`1080 / height > 3`, i.e. `3 * height < 1080`, `BizException 1005`), and
then the painting phase. -/
def tryBody (env : ExecEnv) (ws : List Window) (w : Window) : BodyOut :=
  if env.creditNavTimeout then ⟨.err "playwright timeout: user_credit", ws, []⟩
  else if env.creditStatus ≠ 200 ∨ env.creditRet ≠ "0" then
    ⟨.err ("[" ++ w.name ++ "] request error"), ws, []⟩
  else if env.gift + env.purchase + env.vip < 15 then
    ⟨.biz 1100 (creditMsg w.name), evict ws w.name,
      if env.isDev then [] else [creditMsg w.name]⟩
  else if ¬ env.fileExists then
    ⟨.err ("[" ++ w.name ++ "] input_path not exists"), ws, []⟩
  else if env.imgHeight = 0 then ⟨.err "division by zero", ws, []⟩
  else if 3 * env.imgHeight < 1080 then ⟨.biz 1005 (lowSizeMsg w.name), ws, []⟩
  else paintingPhase env ws w

/-- The `finally:` release (line 409) as reflected in the pool: the acquired
window dict is mutated in place, so if a window of that name is still in the
global list its bucket gains the permit back; an evicted window is no longer
in the list. -/
def releasePool (ws : List Window) (n : String) : List Window :=
  ws.map (fun x => if x.name == n then releaseToken x else x)

/-- Complete outcome of one `jimeng_expand` call: its result, the global
`windows` list and cursor afterwards, the alerts sent, how many times
`window['token_bucket'].release()` ran, and the seconds spent in the
acquisition loop. -/
structure JOutcome where
  result : JResult
  pool : List Window
  cursor : Nat
  alerts : List String
  releaseCount : Nat
  elapsedAcq : Nat
deriving DecidableEq, Repr

/-- `jimeng_expand` (lines 277-415): acquisition loop, then the lazy
`window['instance']` initialization of lines 293-297 — which happens BEFORE
the `try:`/`finally:`, so a raise there propagates without any release — then
the `try:` body with the `finally:` release. -/
def jimeng_expand (env : ExecEnv) (ws : List Window) (cursor : Nat) : JOutcome :=
  match acquireLoop ws cursor 0 with
  | .timeout c e => ⟨.err "get token bucket timeout", ws, c, [], 0, e⟩
  | .emptyCrash c e => ⟨.err "integer modulo by zero", ws, c, [], 0, e⟩
  | .acquired ws1 i c e =>
    let w := ws1.getD i dummyWindow
    if ¬ w.instancePresent ∧ env.initRaises then
      ⟨.err "connect_over_cdp failed", ws1, c, [], 0, e⟩
    else
      let w2 := { w with instancePresent := true }
      let ws2 := ws1.set i w2
      let b := tryBody env ws2 w2
      ⟨b.result, releasePool b.pool w2.name, c, b.alerts, 1, e⟩

/-- Response dictionary returned by `process_img`: `resp_ok` carries
`{'code': 0, 'data': {'output_images': ...}, 'message': 'ok'}`; error
responses carry a code and message and no data. -/
structure Response where
  code : Nat
  message : String
  output_images : Option (List String)
deriving DecidableEq, Repr

/-- `process_img` (lines 127-146) composed with `download_image`
(lines 159-175): a normal `jimeng_expand` return is downloaded one file per
URL (any failure, including a `None` url handed to `requests.get`, raises
`BizException 1004`); a `BizException` becomes `{'code': e.code, 'message':
e.message}`; any other exception becomes code 1000. -/
def process_img (env : ExecEnv) (downloadOk : Bool) (ws : List Window)
    (cursor : Nat) (request_id : String) : Response :=
  match (jimeng_expand env ws cursor).result with
  | .ok urls =>
    if urls.all (fun u => u.isSome) ∧ downloadOk then
      ⟨0, "ok",
        some ((List.range urls.length).map
          (fun i => request_id ++ "_" ++ toString i ++ ".png"))⟩
    else ⟨1004, "[" ++ request_id ++ "] 图片下载失败", none⟩
  | .biz c m => ⟨c, m, none⟩
  | .err m => ⟨1000, m, none⟩

/-- One attempt of the `open_window` retry loop, as reported by the browser
API: a successful open returning the debug address, the transient
`浏览器正在关闭中，请稍后操作` busy response, or any other failure. -/
inductive OpenResp
  | ok (url : String)
  | busy
  | fail (msg : String)
deriving DecidableEq, Repr

/-- Result of `open_window`: the returned debug url with the attempt index and
elapsed seconds at which it was obtained, the re-raise of the busy error after
the 300-second ceiling (`raise` at line 211), or the immediate re-raise of any
non-busy error (`raise` at line 214). -/
inductive OpenResult
  | opened (url : String) (attempt : Nat) (elapsed : Nat)
  | giveUp (attempt : Nat) (elapsed : Nat)
  | fatal (msg : String) (attempt : Nat) (elapsed : Nat)
deriving DecidableEq, Repr

/-- `open_window` (lines 182-214): loop forever; on a busy error check the
elapsed time against 300 seconds — re-raising past the ceiling — otherwise
`time.sleep(1)` and retry; re-raise any other error at once.  `resp k` is the
outcome of the `k`-th attempt; `elapsed` advances by 1 at each `sleep(1)`. -/
def open_window (resp : Nat → OpenResp) (attempt elapsed : Nat) : OpenResult :=
  match resp attempt with
  | .ok u => .opened ("http://" ++ u) attempt elapsed
  | .fail m => .fatal m attempt elapsed
  | .busy =>
    if h : 300 < elapsed then .giveUp attempt elapsed
    else open_window resp (attempt + 1) (elapsed + 1)
termination_by 301 - elapsed
decreasing_by omega

/-- Program counter of one job inside the lazy-init section of lines 293-297:
`start` = about to execute the `window['instance'] is None` check;
`provisioning` = the check saw `None` and the task is suspended inside
`await ... connect_over_cdp(...)` (the provisioning call has been issued);
`finished` = past the init section. -/
inductive InitPC
  | start
  | provisioning
  | finished
deriving DecidableEq, Repr

/-- Shared state of two jobs racing through the lazy-init section of one
worker: the worker's `instance` field and each task's program counter, plus
the number of `connect_over_cdp` calls issued. -/
structure InitState where
  instancePresent : Bool
  pc1 : InitPC
  pc2 : InitPC
  provisionCalls : Nat
deriving DecidableEq, Repr

/-- One cooperative step of task 1 (`t = false`) or task 2 (`t = true`)
through lines 293-297: the `is None` check runs atomically up to the `await`
(issuing the provisioning call and suspending), and the resumed task assigns
`window['instance']` when the call returns.  There is no lock or
single-assignment gate in the source between the check and the assignment. -/
def stepInit (s : InitState) (t : Bool) : InitState :=
  if t then
    match s.pc2 with
    | .start =>
      if s.instancePresent then { s with pc2 := .finished }
      else { s with pc2 := .provisioning, provisionCalls := s.provisionCalls + 1 }
    | .provisioning => { s with pc2 := .finished, instancePresent := true }
    | .finished => s
  else
    match s.pc1 with
    | .start =>
      if s.instancePresent then { s with pc1 := .finished }
      else { s with pc1 := .provisioning, provisionCalls := s.provisionCalls + 1 }
    | .provisioning => { s with pc1 := .finished, instancePresent := true }
    | .finished => s

/-- Run a cooperative schedule (a list of task ids) from a state. -/
def runInit (sched : List Bool) (s : InitState) : InitState :=
  sched.foldl stepInit s

/-- Both tasks at the start of the init section of a worker whose
`instance` is `None`. -/
def initStart : InitState := ⟨false, .start, .start, 0⟩

/-- Environment fixture for concrete runs: every external interaction
succeeds (healthy credit, existing file, adequate image size, painting ok,
one parsed image URL), production flags. -/
def envBase : ExecEnv :=
  { isDev := false, initRaises := false, creditNavTimeout := false,
    creditStatus := 200, creditRet := "0", gift := 20, purchase := 0, vip := 0,
    fileExists := true, imgHeight := 1080, interactionTimeout := false,
    paintingStatus := 200, paintingRet := "0", paintingErrmsg := "",
    items := [[some "u"]], parseRaises := false }

/-- Attempt oracle for `open_window` under which the browser API always
reports the transient busy error. -/
def respBusy : Nat → OpenResp := fun _ => .busy

/-- Attempt oracle for `open_window` under which the very first attempt fails
with a non-busy error. -/
def respFail : Nat → OpenResp := fun k => if k = 0 then .fail "boom" else .busy

/-! ## Helper lemmas -/

lemma map_name_set (ws : List Window) (i : Nat) (a : Window)
    (hn : a.name = (ws.getD i dummyWindow).name) :
    (ws.set i a).map Window.name = ws.map Window.name := by
  induction ws generalizing i with
  | nil => simp
  | cons x xs ih =>
    cases i with
    | zero => simp_all [List.getD]
    | succ n =>
      simp only [List.set_cons_succ, List.map_cons, List.cons.injEq, true_and]
      exact ih n (by simpa [List.getD] using hn)

lemma releasePool_names (ws : List Window) (n : String) :
    (releasePool ws n).map Window.name = ws.map Window.name := by
  induction ws with
  | nil => rfl
  | cons x xs ih =>
    simp only [releasePool, List.map_cons] at *
    rw [List.cons.injEq]
    refine ⟨?_, ih⟩
    split <;> simp [releaseToken]

lemma mem_evict {ws : List Window} {n : String} {x : Window}
    (h : x ∈ evict ws n) : x ∈ ws ∧ x.name ≠ n := by
  rw [evict, List.mem_filter] at h
  exact ⟨h.1, by simpa using h.2⟩

lemma getToken_true {w w2 : Window} (h : getToken w = (true, w2)) :
    0 < w.tokenAvail ∧ w2 = { w with tokenAvail := w.tokenAvail - 1 } := by
  rw [getToken] at h
  split at h
  · exact ⟨by assumption, by simpa using h.symm⟩
  · simp at h

lemma getToken_saturated {w : Window} (h : w.tokenAvail = 0) :
    getToken w = (false, w) := by
  rw [getToken]
  simp [h]

lemma acquireLoop_acquired (ws : List Window) :
    ∀ cursor elapsed pool i c e,
      acquireLoop ws cursor elapsed = .acquired pool i c e →
      i < ws.length ∧
      pool.map Window.name = ws.map Window.name ∧
      (pool.getD i dummyWindow).name ∈ ws.map Window.name := by
  intro cursor elapsed
  induction cursor, elapsed using acquireLoop.induct ws with
  | case1 cursor elapsed h1 =>
    intro pool i c e hacq
    unfold acquireLoop at hacq
    simp [h1] at hacq
  | case2 cursor elapsed h1 h2 =>
    intro pool i c e hacq
    unfold acquireLoop at hacq
    simp [h1, h2] at hacq
  | case3 cursor elapsed h1 h2 w2 heq =>
    intro pool i c e hacq
    unfold acquireLoop at hacq
    simp only [h1, h2, dite_false, dite_true, heq] at hacq
    rw [AcqResult.acquired.injEq] at hacq
    obtain ⟨hp, hi, hc, he⟩ := hacq
    subst hp hi
    have hlt : cursor % ws.length < ws.length :=
      Nat.mod_lt _ (Nat.pos_of_ne_zero h2)
    have hname : w2.name = (ws.getD (cursor % ws.length) dummyWindow).name := by
      rw [(getToken_true heq).2]
    refine ⟨hlt, map_name_set ws _ w2 hname, ?_⟩
    have hset : ((ws.set (cursor % ws.length) w2).getD (cursor % ws.length) dummyWindow) = w2 := by
      rw [List.getD_eq_getElem _ _ (by simpa using hlt), List.getElem_set_self]
    rw [hset, hname, List.getD_eq_getElem _ _ hlt]
    exact List.mem_map_of_mem Window.name (List.getElem_mem hlt)
  | case4 cursor elapsed h1 h2 w heq ih =>
    intro pool i c e hacq
    unfold acquireLoop at hacq
    simp only [h1, h2, heq, dite_false, dite_true] at hacq
    exact ih pool i c e hacq

lemma acquireLoop_saturated (ws : List Window) (hne : ws.length ≠ 0)
    (hsat : ∀ w ∈ ws, w.tokenAvail = 0) :
    ∀ cursor elapsed, elapsed ≤ 300 →
      ∃ cf ef, acquireLoop ws cursor elapsed = .timeout cf ef ∧
        300 < ef ∧ ef ≤ 305 ∧ ef % 5 = elapsed % 5 := by
  intro cursor elapsed
  induction cursor, elapsed using acquireLoop.induct ws with
  | case1 cursor elapsed h1 =>
    intro hle; omega
  | case2 cursor elapsed h1 h2 =>
    exact absurd h2 hne
  | case3 cursor elapsed h1 h2 w2 heq =>
    intro hle
    have hmem : ws.getD (cursor % ws.length) dummyWindow ∈ ws := by
      rw [List.getD_eq_getElem _ _ (Nat.mod_lt _ (Nat.pos_of_ne_zero h2))]
      exact List.getElem_mem _
    rw [getToken_saturated (hsat _ hmem)] at heq
    simp at heq
  | case4 cursor elapsed h1 h2 w heq ih =>
    intro hle
    have hstep : acquireLoop ws cursor elapsed = acquireLoop ws (cursor + 1) (elapsed + 5) := by
      conv_lhs => unfold acquireLoop
      simp only [h1, h2, heq, dite_false, dite_true]
    by_cases hnext : elapsed + 5 ≤ 300
    · obtain ⟨cf, ef, hrun, hgt, hub, hmod⟩ := ih hnext
      exact ⟨cf, ef, by rw [hstep]; exact hrun, hgt, hub, by omega⟩
    · refine ⟨cursor + 1, elapsed + 5, ?_, by omega, by omega, by omega⟩
      rw [hstep]
      unfold acquireLoop
      rw [dif_pos (by omega : 300 < elapsed + 5)]

lemma paintingPhase_pool (env : ExecEnv) (ws : List Window) (w : Window) :
    (paintingPhase env ws w).pool = ws ∨ (paintingPhase env ws w).pool = evict ws w.name := by
  unfold paintingPhase
  repeat' split
  all_goals first | (left; rfl) | (right; rfl)

lemma tryBody_pool (env : ExecEnv) (ws : List Window) (w : Window) :
    (tryBody env ws w).pool = ws ∨ (tryBody env ws w).pool = evict ws w.name := by
  unfold tryBody
  repeat' split
  all_goals first | (left; rfl) | (right; rfl) | exact paintingPhase_pool env ws w

lemma paintingPhase_biz_code (env : ExecEnv) (ws : List Window) (w : Window)
    (k : Nat) (m : String) (h : (paintingPhase env ws w).result = .biz k m) :
    k = 1006 ∨ k = 1003 ∨ k = 1101 ∨ k = 1004 ∨ k = 1005 := by
  unfold paintingPhase at h
  repeat' split at h
  all_goals simp_all

lemma tryBody_biz_code (env : ExecEnv) (ws : List Window) (w : Window)
    (k : Nat) (m : String) (h : (tryBody env ws w).result = .biz k m) : k ≠ 0 := by
  unfold tryBody at h
  repeat' split at h
  all_goals try simp_all
  all_goals try omega
  have := paintingPhase_biz_code env ws w k m h
  omega

lemma paintingPhase_ok (env : ExecEnv) (ws : List Window) (w : Window)
    (urls : List (Option String)) (h : (paintingPhase env ws w).result = .ok urls) :
    urls ≠ [] := by
  unfold paintingPhase at h
  repeat' split at h
  all_goals try simp at h
  rename_i hlen
  subst h
  simpa [List.length_eq_zero] using hlen

lemma tryBody_ok (env : ExecEnv) (ws : List Window) (w : Window)
    (urls : List (Option String)) (h : (tryBody env ws w).result = .ok urls) :
    urls ≠ [] := by
  unfold tryBody at h
  repeat' split at h
  all_goals try simp at h
  exact paintingPhase_ok env ws w urls h

lemma length_filter_range (M : Nat) (p : Nat → Bool) :
    ((List.range M).filter p).length = ((Finset.range M).filter (fun k => p k = true)).card := by
  induction M with
  | zero => simp
  | succ m ih =>
    rw [List.range_succ, List.filter_append, Finset.range_succ, Finset.filter_insert]
    by_cases h : p m = true
    · rw [if_pos h, Finset.card_insert_of_not_mem (by simp)]
      simp [h, ih]
    · rw [if_neg h]
      simp [h, ih]

lemma count_mod_residue (n M c r : Nat) (hn : 0 < n) (hr : r < n) :
    M / n ≤ ((Finset.range M).filter (fun k => (c + k) % n = r)).card := by
  have hcn : c % n < n := Nat.mod_lt _ hn
  have hk0n : (r + (n - c % n)) % n < n := Nat.mod_lt _ hn
  have hmod : (c + (r + (n - c % n)) % n) % n = r := by
    conv_lhs => rw [← Nat.mod_add_mod, Nat.add_mod_mod]
    have he : c % n + (r + (n - c % n)) = r + n := by omega
    rw [he, Nat.add_mod_right, Nat.mod_eq_of_lt hr]
  have key := Finset.card_le_card_of_injOn
    (fun j => (r + (n - c % n)) % n + j * n)
    (s := Finset.range (M / n))
    (t := (Finset.range M).filter (fun k => (c + k) % n = r))
    ?_ ?_
  · simpa using key
  · intro j hj
    rw [Finset.mem_range] at hj
    rw [Finset.mem_filter, Finset.mem_range]
    constructor
    · calc (r + (n - c % n)) % n + j * n < n + j * n := by omega
        _ = (j + 1) * n := by ring
        _ ≤ (M / n) * n := Nat.mul_le_mul_right n (by omega)
        _ ≤ M := Nat.div_mul_le_self M n
    · rw [← Nat.add_assoc, Nat.add_mul_mod_self_right]
      exact hmod
  · intro a _ b _ hab
    have := Nat.add_left_cancel hab
    exact Nat.eq_of_mul_eq_mul_right hn this

lemma count_mod_residue_list (n M c r : Nat) (hn : 0 < n) (hr : r < n) :
    M / n ≤ ((List.range M).map (fun k => (c + k) % n)).count r := by
  rw [List.count_eq_countP, List.countP_map, List.countP_eq_length_filter]
  have heq : ((List.range M).filter ((fun x => x == r) ∘ fun k => (c + k) % n)).length
      = ((Finset.range M).filter (fun k => (((c + k) % n == r) = true))).card :=
    length_filter_range M _
  rw [heq]
  have : ((Finset.range M).filter (fun k => (((c + k) % n == r) = true)))
      = ((Finset.range M).filter (fun k => (c + k) % n = r)) := by
    apply Finset.filter_congr
    intro x _
    simp
  rw [this]
  exact count_mod_residue n M c r hn hr


lemma acquireLoop_first_success (ws : List Window) (c : Nat) (hn : ws.length ≠ 0)
    (ht : 0 < (ws.getD (c % ws.length) dummyWindow).tokenAvail) :
    acquireLoop ws c 0 =
      .acquired (ws.set (c % ws.length) (decWindow (ws.getD (c % ws.length) dummyWindow)))
        (c % ws.length) (c + 1) 0 := by
  unfold acquireLoop
  rw [dif_neg (by omega), dif_neg hn]
  unfold getToken
  rw [if_pos ht]
  rfl


lemma acquireSeq_selects : ∀ (m : Nat) (ws : List Window) (c : Nat),
    ws.length ≠ 0 → (∀ w ∈ ws, m ≤ w.tokenAvail) →
    (acquireSeq m ws c).1 = (List.range m).map (fun k => (c + k) % ws.length) ∧
    (acquireSeq m ws c).2.2 = c + m := by
  intro m
  induction m with
  | zero => intro ws c _ _; simp [acquireSeq]
  | succ m ih =>
    intro ws c hn htok
    have hmem : ws.getD (c % ws.length) dummyWindow ∈ ws := by
      rw [List.getD_eq_getElem _ _ (Nat.mod_lt _ (Nat.pos_of_ne_zero hn))]
      exact List.getElem_mem _
    have ht : 0 < (ws.getD (c % ws.length) dummyWindow).tokenAvail := by
      have := htok _ hmem; omega
    have hsucc := acquireLoop_first_success ws c hn ht
    have hlen2 : (ws.set (c % ws.length)
        (decWindow (ws.getD (c % ws.length) dummyWindow))).length = ws.length :=
      List.length_set ws _ _
    have htok2 : ∀ w ∈ ws.set (c % ws.length)
        (decWindow (ws.getD (c % ws.length) dummyWindow)), m ≤ w.tokenAvail := by
      intro w hw
      rcases List.mem_or_eq_of_mem_set hw with hmem2 | rfl
      · have := htok _ hmem2; omega
      · have := htok _ hmem; simp only [decWindow]; omega
    obtain ⟨ih1, ih2⟩ := ih _ (c + 1) (by rw [hlen2]; exact hn) htok2
    constructor
    · show (acquireSeq (m + 1) ws c).1 = _
      rw [acquireSeq]
      rw [hsucc]
      simp only []
      rw [ih1, hlen2]
      rw [List.range_succ_eq_map, List.map_cons, List.map_map]
      rw [Nat.add_zero]
      congr 1
      apply List.map_congr_left
      intro k _
      simp only [Function.comp_apply, Nat.succ_eq_add_one]
      congr 1
      omega
    · show (acquireSeq (m + 1) ws c).2.2 = _
      rw [acquireSeq, hsucc]
      simp only []
      rw [ih2]
      omega

lemma open_window_busy (resp : Nat → OpenResp) (hb : ∀ k, resp k = .busy) :
    ∀ attempt elapsed, elapsed ≤ 300 →
      ∃ af ef, open_window resp attempt elapsed = .giveUp af ef ∧ 300 < ef ∧ ef ≤ 301 := by
  intro attempt elapsed
  induction attempt, elapsed using open_window.induct resp with
  | case1 a e u heq => rw [hb a] at heq; simp at heq
  | case2 a e m heq => rw [hb a] at heq; simp at heq
  | case3 a e heq hgt => intro hle; omega
  | case4 a e heq hgt ih =>
    intro hle
    have hstep : open_window resp a e = open_window resp (a + 1) (e + 1) := by
      conv_lhs => unfold open_window
      simp only [hb a]
      rw [dif_neg hgt]
    by_cases hnext : e + 1 ≤ 300
    · obtain ⟨af, ef, hrun, h1, h2⟩ := ih hnext
      exact ⟨af, ef, by rw [hstep]; exact hrun, h1, h2⟩
    · refine ⟨a + 1, e + 1, ?_, by omega, by omega⟩
      rw [hstep]
      unfold open_window
      simp only [hb (a + 1)]
      rw [dif_pos (by omega : 300 < e + 1)]

lemma open_window_fatal (resp : Nat → OpenResp) (m : String) :
    ∀ (d attempt elapsed : Nat), (∀ j, j < d → resp (attempt + j) = .busy) →
      resp (attempt + d) = .fail m → elapsed + d ≤ 301 →
      open_window resp attempt elapsed = .fatal m (attempt + d) (elapsed + d) := by
  intro d
  induction d with
  | zero =>
    intro a e hb hf hle
    rw [Nat.add_zero] at hf
    unfold open_window
    simp only [hf]
    rw [Nat.add_zero, Nat.add_zero]
  | succ d ih =>
    intro a e hb hf hle
    have hb0 : resp a = .busy := by
      have := hb 0 (by omega)
      simpa using this
    conv_lhs => unfold open_window
    simp only [hb0]
    rw [dif_neg (by omega : ¬ 300 < e)]
    have hb2 : ∀ j, j < d → resp (a + 1 + j) = .busy := by
      intro j hj
      have h3 : a + 1 + j = a + (j + 1) := by omega
      rw [h3]
      exact hb (j + 1) (by omega)
    have hf2 : resp (a + 1 + d) = .fail m := by
      have h3 : a + 1 + d = a + (d + 1) := by omega
      rw [h3]; exact hf
    have := ih (a + 1) (e + 1) hb2 hf2 (by omega)
    rw [this]
    congr 1 <;> omega

lemma mem_releasePool_name {ws : List Window} {n : String} {x : Window}
    (h : x ∈ releasePool ws n) : ∃ y ∈ ws, x.name = y.name := by
  rw [releasePool, List.mem_map] at h
  obtain ⟨y, hy, rfl⟩ := h
  refine ⟨y, hy, ?_⟩
  split <;> simp [releaseToken]

lemma jimeng_expand_ok (env : ExecEnv) (ws : List Window) (c : Nat)
    (urls : List (Option String))
    (h : (jimeng_expand env ws c).result = .ok urls) : urls ≠ [] := by
  unfold jimeng_expand at h
  cases hacq : acquireLoop ws c 0 with
  | timeout cf ef => rw [hacq] at h; simp at h
  | emptyCrash cf ef => rw [hacq] at h; simp at h
  | acquired ws1 i c1 e1 =>
    rw [hacq] at h
    simp only [] at h
    split at h
    · simp at h
    · exact tryBody_ok env _ _ urls h

lemma jimeng_expand_biz (env : ExecEnv) (ws : List Window) (c : Nat)
    (k : Nat) (m : String)
    (h : (jimeng_expand env ws c).result = .biz k m) : k ≠ 0 := by
  unfold jimeng_expand at h
  cases hacq : acquireLoop ws c 0 with
  | timeout cf ef => rw [hacq] at h; simp at h
  | emptyCrash cf ef => rw [hacq] at h; simp at h
  | acquired ws1 i c1 e1 =>
    rw [hacq] at h
    simp only [] at h
    split at h
    · simp at h
    · exact tryBody_biz_code env _ _ k m h

lemma jimeng_pool_names_sublist (env : ExecEnv) (ws : List Window) (c : Nat) :
    ((jimeng_expand env ws c).pool.map Window.name).Sublist (ws.map Window.name) := by
  unfold jimeng_expand
  cases hacq : acquireLoop ws c 0 with
  | timeout cf ef => exact List.Sublist.refl _
  | emptyCrash cf ef => exact List.Sublist.refl _
  | acquired ws1 i c1 e1 =>
    obtain ⟨hlt, hnames, hmem⟩ := acquireLoop_acquired ws c 0 ws1 i c1 e1 hacq
    simp only []
    split
    · rw [hnames]
    · set w := ws1.getD i dummyWindow with hw
      set w2 : Window := { w with instancePresent := true } with hw2
      have hname2 : w2.name = w.name := rfl
      have hns : (ws1.set i w2).map Window.name = ws1.map Window.name :=
        map_name_set ws1 i w2 hname2
      rw [releasePool_names]
      rcases tryBody_pool env (ws1.set i w2) w2 with hp | hp
      · rw [hp, hns, hnames]
      · rw [hp]
        have hsub : ((evict (ws1.set i w2) w2.name).map Window.name).Sublist
            ((ws1.set i w2).map Window.name) :=
          List.Sublist.map Window.name (List.filter_sublist _)
        rw [hns, hnames] at hsub
        exact hsub

lemma jimeng_release_on_shrink (env : ExecEnv) (ws : List Window) (c : Nat) :
    (jimeng_expand env ws c).pool.length < ws.length →
    (jimeng_expand env ws c).releaseCount = 1 := by
  unfold jimeng_expand
  cases hacq : acquireLoop ws c 0 with
  | timeout cf ef =>
    intro h
    have h2 : ws.length < ws.length := h
    omega
  | emptyCrash cf ef =>
    intro h
    have h2 : ws.length < ws.length := h
    omega
  | acquired ws1 i c1 e1 =>
    simp only []
    split
    · intro h
      obtain ⟨hlt, hnames, hmem⟩ := acquireLoop_acquired ws c 0 ws1 i c1 e1 hacq
      have hlen : ws1.length = ws.length := by
        have := congrArg List.length hnames
        simpa using this
      have h2 : ws1.length < ws.length := h
      omega
    · intro h
      rfl

/-! ## Claims -/

/-- C1: the claim states that whenever the acquisition loop's `get_token`
succeeds, `release()` runs exactly once on every exit path of the job.  The
code violates it: the lazy `connect_over_cdp` initialization of lines 293-297
sits between the successful `get_token` and the `try:`/`finally:` that
performs the release, so when that initialization raises the permit is never
released.  This theorem evaluates the model at such a failing input: the
selected window's bucket lost its permit (`tokenAvail` dropped from 1 to 0 in
the final pool), the exception propagates, and `releaseCount = 0`. -/
theorem c1_release_skipped_on_init_fault :
    jimeng_expand { envBase with initRaises := true } [⟨"W1", 1, 4, false⟩] 0
      = ⟨.err "connect_over_cdp failed", [⟨"W1", 0, 4, false⟩], 1, [], 0, 0⟩ := by
  have hacq : acquireLoop [⟨"W1", 1, 4, false⟩] 0 0
      = .acquired [⟨"W1", 0, 4, false⟩] 0 1 0 := by
    simp [acquireLoop, getToken, dummyWindow]
  unfold jimeng_expand
  rw [hacq]
  rfl

/-- C2 (counterexample): with an empty pool the claim announces a distinct,
fatal `PoolExhausted` error; the code instead evaluates
`windows[window_index % len(windows)]`, raising `ZeroDivisionError`, which
`process_img` surfaces as the generic internal-error code 1000 — the same code
as any unexpected crash, not a distinct pool-exhausted failure. -/
theorem c2_counterexample_empty_pool_generic_error :
    process_img envBase true [] 0 "rid" = ⟨1000, "integer modulo by zero", none⟩ ∧
    (1000 : Nat) ≠ 0 := by
  constructor
  · have hacq : acquireLoop ([] : List Window) 0 0 = .emptyCrash 0 0 := by
      unfold acquireLoop
      simp
    unfold process_img jimeng_expand
    rw [hacq]
  · omega

/-- C2 (amended): if the pool of workers is empty when a job attempts
acquisition, the very first loop iteration crashes with the modulo-by-zero
error — immediately (zero elapsed backoff time, so no retry loop and no
sleep) — and the failure surfaces to the caller as the generic internal error
code 1000 rather than as a distinct `PoolExhausted` error. -/
theorem c2_empty_pool_fails_with_modulo_crash (env : ExecEnv) (c : Nat)
    (dl : Bool) (rid : String) :
    acquireLoop [] c 0 = .emptyCrash c 0 ∧
    (jimeng_expand env [] c).result = .err "integer modulo by zero" ∧
    (jimeng_expand env [] c).elapsedAcq = 0 ∧
    (process_img env dl [] c rid).code = 1000 := by
  have hacq : acquireLoop ([] : List Window) c 0 = .emptyCrash c 0 := by
    unfold acquireLoop
    simp
  refine ⟨hacq, ?_, ?_, ?_⟩
  · unfold jimeng_expand
    rw [hacq]
  · unfold jimeng_expand
    rw [hacq]
  · unfold process_img jimeng_expand
    rw [hacq]

/-- C3: if every worker's token bucket is saturated (no permit available) and
nothing ever refills or releases, the acquisition loop terminates with the
`get token bucket timeout` failure once the wall-clock deadline recorded at
entry (300 seconds) has passed — it does not loop forever — and the elapsed
time is an exact multiple of the fixed 5-second backoff slept between failed
attempts; no release is performed because no permit was acquired. -/
theorem c3_saturated_pool_times_out (env : ExecEnv) (ws : List Window)
    (c : Nat) (hne : ws ≠ []) (hsat : ∀ w ∈ ws, w.tokenAvail = 0) :
    (jimeng_expand env ws c).result = .err "get token bucket timeout" ∧
    300 < (jimeng_expand env ws c).elapsedAcq ∧
    (jimeng_expand env ws c).elapsedAcq % 5 = 0 ∧
    (jimeng_expand env ws c).releaseCount = 0 := by
  have hne2 : ws.length ≠ 0 := by
    simpa [List.length_eq_zero] using hne
  obtain ⟨cf, ef, hrun, h1, h2, h3⟩ :=
    acquireLoop_saturated ws hne2 hsat c 0 (by omega)
  unfold jimeng_expand
  rw [hrun]
  exact ⟨rfl, by simpa using h1, by simpa using h3, rfl⟩

/-- C3 (witness): the saturated-pool hypotheses hold at a concrete one-window
pool with an empty bucket, and the timeout conclusion follows. -/
theorem c3_saturated_pool_times_out_witness :
    (([⟨"W1", 0, 4, false⟩] : List Window) ≠ []) ∧
    (∀ w ∈ ([⟨"W1", 0, 4, false⟩] : List Window), w.tokenAvail = 0) ∧
    (jimeng_expand envBase [⟨"W1", 0, 4, false⟩] 0).result
      = .err "get token bucket timeout" :=
  ⟨by decide, by decide,
    (c3_saturated_pool_times_out envBase [⟨"W1", 0, 4, false⟩] 0
      (by decide) (by decide)).1⟩

/-- C4 (counterexample): the claim asserts that every execution reporting
total credit below 15 emits exactly one alert.  Under the `MY_DEV` flag the
code evicts the worker and raises `BizException 1100` but the
`utils.sendAlert` call is skipped (line 328), so zero alerts are emitted. -/
theorem c4_counterexample_dev_mode_no_alert :
    jimeng_expand { envBase with isDev := true, gift := 0 } [⟨"W1", 1, 4, true⟩] 0
      = ⟨.biz 1100 (creditMsg "W1"), [], 1, [], 1, 0⟩ := by
  have hacq : acquireLoop [⟨"W1", 1, 4, true⟩] 0 0
      = .acquired [⟨"W1", 0, 4, true⟩] 0 1 0 := by
    simp [acquireLoop, getToken, dummyWindow]
  unfold jimeng_expand
  rw [hacq]
  rfl

/-- C4 (amended): for every job execution that acquires a worker and reports
total credit (gift + purchase + vip) below 15, the worker is evicted from the
pool (no remaining window carries its name, and no subsequent acquisition
from the resulting pool ever selects a window of that name), the job fails
with `BizException 1100` carrying the insufficient-credit message, and —
provided the process is not running under the `MY_DEV` development flag —
exactly one alert is emitted; the held permit is still released exactly
once. -/
theorem c4_credit_eviction (env : ExecEnv) (ws : List Window) (c : Nat)
    (ws1 : List Window) (i c1 e1 : Nat)
    (hacq : acquireLoop ws c 0 = .acquired ws1 i c1 e1)
    (hini : env.initRaises = false)
    (hnav : env.creditNavTimeout = false)
    (hst : env.creditStatus = 200) (hret : env.creditRet = "0")
    (hcred : env.gift + env.purchase + env.vip < 15)
    (hdev : env.isDev = false) :
    (jimeng_expand env ws c).result
        = .biz 1100 (creditMsg ((ws1.getD i dummyWindow).name)) ∧
    (jimeng_expand env ws c).alerts = [creditMsg ((ws1.getD i dummyWindow).name)] ∧
    (∀ x ∈ (jimeng_expand env ws c).pool, x.name ≠ (ws1.getD i dummyWindow).name) ∧
    (jimeng_expand env ws c).releaseCount = 1 ∧
    (∀ c2 e2 p2 i2 c3 e3,
      acquireLoop (jimeng_expand env ws c).pool c2 e2 = .acquired p2 i2 c3 e3 →
      (p2.getD i2 dummyWindow).name ≠ (ws1.getD i dummyWindow).name) := by
  have houtcome : jimeng_expand env ws c =
      ⟨.biz 1100 (creditMsg ((ws1.getD i dummyWindow).name)),
        releasePool
          (evict (ws1.set i { ws1.getD i dummyWindow with instancePresent := true })
            ((ws1.getD i dummyWindow).name))
          ((ws1.getD i dummyWindow).name),
        c1, [creditMsg ((ws1.getD i dummyWindow).name)], 1, e1⟩ := by
    unfold jimeng_expand
    rw [hacq]
    dsimp only
    rw [if_neg (by simp [hini])]
    unfold tryBody
    rw [if_neg (by simp [hnav])]
    rw [if_neg (by simp [hst, hret])]
    rw [if_pos hcred]
    rw [if_neg (by simp [hdev])]
  have hpool : ∀ x ∈ (jimeng_expand env ws c).pool,
      x.name ≠ (ws1.getD i dummyWindow).name := by
    rw [houtcome]
    intro x hx
    obtain ⟨y, hy, hxy⟩ := mem_releasePool_name hx
    rw [hxy]
    exact (mem_evict hy).2
  refine ⟨by rw [houtcome], by rw [houtcome], hpool, by rw [houtcome], ?_⟩
  intro c2 e2 p2 i2 c3 e3 hacq2
  obtain ⟨hlt2, hnames2, hmem2⟩ :=
    acquireLoop_acquired _ c2 e2 p2 i2 c3 e3 hacq2
  rw [List.mem_map] at hmem2
  obtain ⟨y, hy, hyn⟩ := hmem2
  rw [← hyn]
  exact hpool y hy

/-- C4 (witness): the amended theorem's hypotheses hold at a concrete
production-mode run reporting zero credit; the worker is evicted, exactly one
alert is emitted and the job fails with code 1100. -/
theorem c4_credit_eviction_witness :
    acquireLoop [⟨"W1", 1, 4, true⟩] 0 0 = .acquired [⟨"W1", 0, 4, true⟩] 0 1 0 ∧
    ({ envBase with gift := 0 } : ExecEnv).gift
        + ({ envBase with gift := 0 } : ExecEnv).purchase
        + ({ envBase with gift := 0 } : ExecEnv).vip < 15 ∧
    (jimeng_expand { envBase with gift := 0 } [⟨"W1", 1, 4, true⟩] 0).alerts
      = [creditMsg "W1"] := by
  have hacq : acquireLoop [⟨"W1", 1, 4, true⟩] 0 0
      = .acquired [⟨"W1", 0, 4, true⟩] 0 1 0 := by
    simp [acquireLoop, getToken, dummyWindow]
  refine ⟨hacq, by decide, ?_⟩
  exact (c4_credit_eviction { envBase with gift := 0 } [⟨"W1", 1, 4, true⟩] 0
    [⟨"W1", 0, 4, true⟩] 0 1 0 hacq rfl rfl rfl rfl (by decide) rfl).2.1

/-- C5 (counterexample): the claim asserts that a navigation/page-interaction
timeout never evicts the worker.  The code's `except PlaywrightTimeoutError`
handler (lines 368-376) removes the worker from the pool, emits an alert and
raises `BizException 1006`: here a one-worker pool becomes empty after a
timeout outcome, refuting "pool membership is unchanged". -/
theorem c5_counterexample_timeout_evicts :
    jimeng_expand { envBase with interactionTimeout := true } [⟨"W1", 1, 4, true⟩] 0
      = ⟨.biz 1006 (pageTimeoutMsg "W1"), [], 1, [pageTimeoutMsg "W1"], 1, 0⟩ := by
  have hacq : acquireLoop [⟨"W1", 1, 4, true⟩] 0 0
      = .acquired [⟨"W1", 0, 4, true⟩] 0 1 0 := by
    simp [acquireLoop, getToken, dummyWindow]
  unfold jimeng_expand
  rw [hacq]
  rfl

/-- C5 (amended): of the two transient conditions, only the downstream
rate-limit response leaves the pool untouched — the job fails retryably with
`BizException 1003`, the pool's membership (its name sequence) is unchanged
and no alert is emitted.  A page-interaction timeout, by contrast, DOES evict
the acquired worker: no remaining window carries its name, the job fails with
`BizException 1006`, and outside the `MY_DEV` flag exactly one alert is
emitted. -/
theorem c5_transient_outcomes (env : ExecEnv) (ws : List Window) (c : Nat)
    (ws1 : List Window) (i c1 e1 : Nat)
    (hacq : acquireLoop ws c 0 = .acquired ws1 i c1 e1)
    (hini : env.initRaises = false)
    (hnav : env.creditNavTimeout = false)
    (hst : env.creditStatus = 200) (hret : env.creditRet = "0")
    (hcred : 15 ≤ env.gift + env.purchase + env.vip)
    (hfile : env.fileExists = true)
    (hh : 1080 ≤ 3 * env.imgHeight) :
    ((env.interactionTimeout = false → env.paintingRet = "1" →
        env.paintingErrmsg = "api rate limit" →
      (jimeng_expand env ws c).result
          = .biz 1003 (rateMsg ((ws1.getD i dummyWindow).name)) ∧
      (jimeng_expand env ws c).pool.map Window.name = ws.map Window.name ∧
      (jimeng_expand env ws c).alerts = [])) ∧
    ((env.interactionTimeout = true →
      (jimeng_expand env ws c).result
          = .biz 1006 (pageTimeoutMsg ((ws1.getD i dummyWindow).name)) ∧
      (∀ x ∈ (jimeng_expand env ws c).pool,
        x.name ≠ (ws1.getD i dummyWindow).name) ∧
      (env.isDev = false →
        (jimeng_expand env ws c).alerts
          = [pageTimeoutMsg ((ws1.getD i dummyWindow).name)]))) := by
  obtain ⟨hlt, hnames, hmemn⟩ := acquireLoop_acquired ws c 0 ws1 i c1 e1 hacq
  have hpre : ∀ out : BodyOut,
      paintingPhase env
        (ws1.set i { ws1.getD i dummyWindow with instancePresent := true })
        { ws1.getD i dummyWindow with instancePresent := true } = out →
      jimeng_expand env ws c =
        ⟨out.result, releasePool out.pool ((ws1.getD i dummyWindow).name),
          c1, out.alerts, 1, e1⟩ := by
    intro out hout
    unfold jimeng_expand
    rw [hacq]
    dsimp only
    rw [if_neg (by simp [hini])]
    unfold tryBody
    rw [if_neg (by simp [hnav])]
    rw [if_neg (by simp [hst, hret])]
    rw [if_neg (by omega)]
    rw [if_neg (by simp [hfile])]
    rw [if_neg (by omega)]
    rw [if_neg (by omega)]
    rw [hout]
  have hns : (ws1.set i { ws1.getD i dummyWindow with instancePresent := true }).map
      Window.name = ws1.map Window.name :=
    map_name_set ws1 i _ rfl
  constructor
  · intro hti hpr herr
    have hout := hpre ⟨.biz 1003 (rateMsg ((ws1.getD i dummyWindow).name)),
        ws1.set i { ws1.getD i dummyWindow with instancePresent := true }, []⟩ ?_
    · rw [hout]
      refine ⟨rfl, ?_, rfl⟩
      dsimp only
      rw [releasePool_names, hns, hnames]
    · unfold paintingPhase
      rw [if_neg (by simp [hti])]
      rw [if_pos (Or.inr (by simp [hpr]))]
      rw [if_pos ⟨hpr, herr⟩]
  · intro hti
    have hout := hpre ⟨.biz 1006 (pageTimeoutMsg ((ws1.getD i dummyWindow).name)),
        evict (ws1.set i { ws1.getD i dummyWindow with instancePresent := true })
          ((ws1.getD i dummyWindow).name),
        if env.isDev then [] else [pageTimeoutMsg ((ws1.getD i dummyWindow).name)]⟩ ?_
    · rw [hout]
      refine ⟨rfl, ?_, ?_⟩
      · intro x hx
        obtain ⟨y, hy, hxy⟩ := mem_releasePool_name hx
        rw [hxy]
        exact (mem_evict hy).2
      · intro hdev
        dsimp only
        rw [if_neg (by simp [hdev])]
    · unfold paintingPhase
      rw [if_pos hti]

/-- C5 (witness): both branches of the amended theorem instantiated — a
rate-limited run leaves the one-worker pool's membership unchanged and fails
with 1003; a page-interaction-timeout run fails with 1006. -/
theorem c5_transient_outcomes_witness :
    acquireLoop [⟨"W1", 1, 4, true⟩] 0 0 = .acquired [⟨"W1", 0, 4, true⟩] 0 1 0 ∧
    ((jimeng_expand { envBase with paintingRet := "1", paintingErrmsg := "api rate limit" }
        [⟨"W1", 1, 4, true⟩] 0).pool.map Window.name
      = ([⟨"W1", 1, 4, true⟩] : List Window).map Window.name) ∧
    (jimeng_expand { envBase with interactionTimeout := true }
        [⟨"W1", 1, 4, true⟩] 0).result = .biz 1006 (pageTimeoutMsg "W1") := by
  have hacq : acquireLoop [⟨"W1", 1, 4, true⟩] 0 0
      = .acquired [⟨"W1", 0, 4, true⟩] 0 1 0 := by
    simp [acquireLoop, getToken, dummyWindow]
  refine ⟨hacq, ?_, ?_⟩
  · exact (((c5_transient_outcomes
      { envBase with paintingRet := "1", paintingErrmsg := "api rate limit" }
      [⟨"W1", 1, 4, true⟩] 0 [⟨"W1", 0, 4, true⟩] 0 1 0 hacq
      rfl rfl rfl rfl (by decide) rfl (by decide)).1 rfl rfl rfl).2).1
  · exact ((c5_transient_outcomes
      { envBase with interactionTimeout := true }
      [⟨"W1", 1, 4, true⟩] 0 [⟨"W1", 0, 4, true⟩] 0 1 0 hacq
      rfl rfl rfl rfl (by decide) rfl (by decide)).2 rfl).1

/-- C6: pool membership only shrinks — after any `jimeng_expand` run the
name sequence of the surviving pool is a sublist of the original name
sequence (so no worker is ever added or re-added); once a name is absent from
the resulting pool, any subsequent acquisition from that pool never selects a
window of that name; and whenever the run shrank the pool (an eviction
occurred, necessarily with a permit held), the held permit was still released
exactly once. -/
theorem c6_membership_monotone (env : ExecEnv) (ws : List Window) (c : Nat)
    (nm : String) (c2 e2 : Nat) (p2 : List Window) (i2 c3 e3 : Nat)
    (hnm : nm ∉ ((jimeng_expand env ws c).pool.map Window.name))
    (hacq2 : acquireLoop (jimeng_expand env ws c).pool c2 e2 = .acquired p2 i2 c3 e3) :
    ((jimeng_expand env ws c).pool.map Window.name).Sublist (ws.map Window.name) ∧
    (p2.getD i2 dummyWindow).name ≠ nm ∧
    ((jimeng_expand env ws c).pool.length < ws.length →
      (jimeng_expand env ws c).releaseCount = 1) := by
  refine ⟨jimeng_pool_names_sublist env ws c, ?_, jimeng_release_on_shrink env ws c⟩
  obtain ⟨hl2, hn2, hmem⟩ := acquireLoop_acquired _ c2 e2 p2 i2 c3 e3 hacq2
  intro heq
  rw [heq] at hmem
  exact hnm hmem

/-- C6 (witness): a two-worker pool where the first worker is evicted for
zero credit; the evicted name is absent from the surviving pool, and the next
acquisition from that pool selects the other worker. -/
theorem c6_membership_monotone_witness :
    ("W1" ∉ ((jimeng_expand { envBase with gift := 0 }
        [⟨"W1", 1, 4, true⟩, ⟨"W2", 1, 4, true⟩] 0).pool.map Window.name)) ∧
    acquireLoop (jimeng_expand { envBase with gift := 0 }
        [⟨"W1", 1, 4, true⟩, ⟨"W2", 1, 4, true⟩] 0).pool 0 0
      = .acquired [⟨"W2", 0, 4, true⟩] 0 1 0 ∧
    (([⟨"W2", 0, 4, true⟩] : List Window).getD 0 dummyWindow).name ≠ "W1" := by
  have hrun : jimeng_expand { envBase with gift := 0 }
      [⟨"W1", 1, 4, true⟩, ⟨"W2", 1, 4, true⟩] 0
      = ⟨.biz 1100 (creditMsg "W1"), [⟨"W2", 1, 4, true⟩], 1, [creditMsg "W1"], 1, 0⟩ := by
    have hacq : acquireLoop [⟨"W1", 1, 4, true⟩, ⟨"W2", 1, 4, true⟩] 0 0
        = .acquired [⟨"W1", 0, 4, true⟩, ⟨"W2", 1, 4, true⟩] 0 1 0 := by
      simp [acquireLoop, getToken, dummyWindow]
    unfold jimeng_expand
    rw [hacq]
    rfl
  have hnm : "W1" ∉ ((jimeng_expand { envBase with gift := 0 }
      [⟨"W1", 1, 4, true⟩, ⟨"W2", 1, 4, true⟩] 0).pool.map Window.name) := by
    rw [hrun]
    decide
  have hacq2 : acquireLoop (jimeng_expand { envBase with gift := 0 }
      [⟨"W1", 1, 4, true⟩, ⟨"W2", 1, 4, true⟩] 0).pool 0 0
      = .acquired [⟨"W2", 0, 4, true⟩] 0 1 0 := by
    rw [hrun]
    simp [acquireLoop, getToken, dummyWindow]
  exact ⟨hnm, hacq2,
    (c6_membership_monotone { envBase with gift := 0 }
      [⟨"W1", 1, 4, true⟩, ⟨"W2", 1, 4, true⟩] 0 "W1" 0 0
      [⟨"W2", 0, 4, true⟩] 0 1 0 hnm hacq2).2.1⟩

/-- C7: worker selection is round-robin.  When `M` consecutive acquisitions
all succeed (every bucket holds at least `M` permits) with no evictions, the
`k`-th acquisition selects index `(cursor + k) mod poolSize` — one cursor
advance per acquisition, final cursor `cursor + M` — and therefore every
worker index `r` is selected at least `⌊M / poolSize⌋` times whenever `M` is
at least the pool size. -/
theorem c7_round_robin_fairness (ws : List Window) (c M r : Nat)
    (hn : 0 < ws.length) (hM : ws.length ≤ M)
    (htok : ∀ w ∈ ws, M ≤ w.tokenAvail) (hr : r < ws.length) :
    (acquireSeq M ws c).1 = (List.range M).map (fun k => (c + k) % ws.length) ∧
    (acquireSeq M ws c).2.2 = c + M ∧
    M / ws.length ≤ (acquireSeq M ws c).1.count r := by
  obtain ⟨h1, h2⟩ := acquireSeq_selects M ws c (by omega) htok
  refine ⟨h1, h2, ?_⟩
  rw [h1]
  exact count_mod_residue_list ws.length M c r hn hr

/-- C7 (witness): five successful acquisitions over a two-worker pool select
`[0, 1, 0, 1, 0]`, so each worker is selected at least `⌊5/2⌋ = 2` times. -/
theorem c7_round_robin_fairness_witness :
    (0 < ([⟨"W1", 5, 5, true⟩, ⟨"W2", 5, 5, true⟩] : List Window).length) ∧
    (∀ w ∈ ([⟨"W1", 5, 5, true⟩, ⟨"W2", 5, 5, true⟩] : List Window),
      5 ≤ w.tokenAvail) ∧
    5 / ([⟨"W1", 5, 5, true⟩, ⟨"W2", 5, 5, true⟩] : List Window).length ≤
      (acquireSeq 5 [⟨"W1", 5, 5, true⟩, ⟨"W2", 5, 5, true⟩] 0).1.count 0 :=
  ⟨by decide, by decide,
    (c7_round_robin_fairness [⟨"W1", 5, 5, true⟩, ⟨"W2", 5, 5, true⟩] 0 5 0
      (by decide) (by decide) (by decide) (by decide)).2.2⟩

/-- C8: `open_window` tolerates the transient provider-busy error
(`浏览器正在关闭中，请稍后操作`): while every attempt reports busy it keeps
retrying with the 1-second sleep and surfaces the failure fatally only once
the elapsed time exceeds the 300-second (5-minute) ceiling; whereas any
non-busy error at any attempt is re-raised fatally at that very attempt, with
no further retry. -/
theorem c8_open_window_retry (resp : Nat → OpenResp) :
    ((∀ k, resp k = .busy) →
      ∃ af ef, open_window resp 0 0 = .giveUp af ef ∧ 300 < ef ∧ ef ≤ 301) ∧
    (∀ d m, (∀ j, j < d → resp j = .busy) → resp d = .fail m → d ≤ 301 →
      open_window resp 0 0 = .fatal m d d) := by
  constructor
  · intro hb
    exact open_window_busy resp hb 0 0 (by omega)
  · intro d m hb hf hd
    have := open_window_fatal resp m d 0 0 (fun j hj => by simpa using hb j hj)
      (by simpa using hf) (by omega)
    simpa using this

/-- C8 (witness): under the always-busy oracle the open gives up only past
the 300-second ceiling; under an oracle whose first attempt fails with a
non-busy error, the failure is fatal at attempt zero. -/
theorem c8_open_window_retry_witness :
    (∃ af ef, open_window respBusy 0 0 = .giveUp af ef ∧ 300 < ef ∧ ef ≤ 301) ∧
    open_window respFail 0 0 = .fatal "boom" 0 0 :=
  ⟨(c8_open_window_retry respBusy).1 (fun k => rfl),
    (c8_open_window_retry respFail).2 0 "boom"
      (fun j hj => absurd hj (by omega)) rfl (by omega)⟩

/-- C9: the claim states that two jobs concurrently first-using the same
worker provision its session exactly once.  The code violates it: the
`window['instance'] is None` check and the assignment at line 297 are
separated by `await` suspension points with no per-worker guard, so the
cooperative schedule in which both tasks run their check before either
assignment issues the `connect_over_cdp` call twice (a duplicate, leaked
session); only the fully sequential schedule provisions once. -/
theorem c9_duplicate_provisioning_race :
    runInit [false, true, false, true] initStart
        = ⟨true, .finished, .finished, 2⟩ ∧
      runInit [false, false, true] initStart
        = ⟨true, .finished, .finished, 1⟩ :=
  ⟨rfl, rfl⟩

/-- C10: whenever `process_img` answers with the success code 0, the
`output_images` payload is a non-empty list: an execution that parses zero
image URLs raises `BizException 1005` before any success response is built,
and every error path carries a non-zero code. -/
theorem c10_success_implies_nonempty_images (env : ExecEnv) (dl : Bool)
    (ws : List Window) (c : Nat) (rid : String)
    (h : (process_img env dl ws c rid).code = 0) :
    ∃ l, (process_img env dl ws c rid).output_images = some l ∧ l ≠ [] := by
  unfold process_img at h ⊢
  cases hres : (jimeng_expand env ws c).result with
  | ok urls =>
    rw [hres] at h
    dsimp only at h ⊢
    have hno : urls ≠ [] := jimeng_expand_ok env ws c urls hres
    by_cases hcond : (urls.all fun u => u.isSome) = true ∧ dl = true
    · rw [if_pos hcond]
      refine ⟨_, rfl, ?_⟩
      have hlen : urls.length ≠ 0 := fun hl => hno (List.length_eq_zero.mp hl)
      simp only [ne_eq, List.map_eq_nil_iff, List.range_eq_nil]
      exact hlen
    · rw [if_neg hcond] at h
      exact absurd h (by dsimp only; omega)
  | biz k m =>
    rw [hres] at h
    dsimp only at h
    have := jimeng_expand_biz env ws c k m hres
    omega
  | err m =>
    rw [hres] at h
    dsimp only at h
    omega

/-- C10 (witness): a fully successful concrete run returns code 0 with the
non-empty downloaded image list. -/
theorem c10_success_implies_nonempty_images_witness :
    (process_img envBase true [⟨"W1", 1, 4, true⟩] 0 "rid").code = 0 ∧
    ∃ l, (process_img envBase true [⟨"W1", 1, 4, true⟩] 0 "rid").output_images
        = some l ∧ l ≠ [] := by
  have h : (process_img envBase true [⟨"W1", 1, 4, true⟩] 0 "rid").code = 0 := by
    have hacq : acquireLoop [⟨"W1", 1, 4, true⟩] 0 0
        = .acquired [⟨"W1", 0, 4, true⟩] 0 1 0 := by
      simp [acquireLoop, getToken, dummyWindow]
    unfold process_img jimeng_expand
    rw [hacq]
    rfl
  exact ⟨h, c10_success_implies_nonempty_images envBase true _ 0 "rid" h⟩

end Jimeng
